import Mathlib

/-!
Verification of the configuration core of ArchiPy (`archipy/configs/base_config.py`).

The repository code under verification is `BaseConfig`, a `pydantic_settings.BaseSettings`
subclass.  It contributes three things of its own:

* `settings_customise_sources` fixes the ordered tuple of settings sources
  (secret files, pyproject.toml `[tool.configs]`, configs.toml, OS environment,
  `.env` file, init kwargs), highest priority first;
* `model_config` sets `env_nested_delimiter="__"`, `env_ignore_empty=True`,
  `case_sensitive=True`, `extra="ignore"`;
* the singleton registry (`global_config` / `set_global` / `reload`) and the
  `customize` hook, which copies `self.ENVIRONMENT` into `self.ELASTIC_APM.ENVIRONMENT`.

The precedence merger and the settings materializer are the pydantic-settings
machinery configured by this class; that code is not part of the repository
sources, so those parts are modelled from the specification (deep merge of the
ordered source dictionaries, nested-key explosion on the `__` delimiter,
empty-value skipping, schema defaults for absent paths).  Such definitions carry
a `Modelled from the spec:` doc comment.  Python dictionaries are embedded as
association lists with unique keys (`wfDict`), raised exceptions as `Except`,
and the class-level singleton state as an explicit `RegState` value threaded
through the operations.  Python object identity, which the reload claims speak
about, is embedded by stamping every constructed instance with an allocation
counter drawn from the registry state.
-/

/-- Modelled from the spec: a merged-tree node (spec §3 MergedTree) — a raw
configuration value is either a scalar (embedded as its string form) or a
nested mapping from key segment to value. -/
inductive JTree where
  | leaf : String → JTree
  | node : List (String × JTree) → JTree

/-- A raw key→value mapping, as returned by one source provider (a Python dict,
embedded as an association list; `wfDict` states key uniqueness). -/
abbrev Dict := List (String × JTree)

/-- Lookup of a key in a mapping (first occurrence; on well-formed dicts the
only occurrence).  Keys are matched case-sensitively, matching
`case_sensitive=True` in `BaseConfig.model_config`. -/
def dictGet : Dict → String → Option JTree
  | [], _ => none
  | (k', v) :: rest, k => if k' = k then some v else dictGet rest k

/-- Store a value under a key: overwrite the first occurrence, else append —
the embedding of `d[k] = v` on a Python dict. -/
def dictPut : Dict → String → JTree → Dict
  | [], k, v => [(k, v)]
  | (k', v') :: rest, k, v => if k' = k then (k, v) :: rest else (k', v') :: dictPut rest k v

mutual

/-- Well-formedness of a tree: every nested mapping has unique keys
(the invariant Python dictionaries provide by construction). -/
def wfTree : JTree → Bool
  | .leaf _ => true
  | .node d => wfDict d

/-- Well-formedness of a mapping: unique keys at this level and well-formed
values. -/
def wfDict : Dict → Bool
  | [] => true
  | (k, v) :: rest => (dictGet rest k).isNone && wfTree v && wfDict rest

end

/-- Lookup of a key path inside a tree: descends through nested mappings;
a scalar met before the path is exhausted, or a missing key, yields `none`. -/
def getPath : JTree → List String → Option JTree
  | t, [] => some t
  | .leaf _, _ :: _ => none
  | .node d, k :: rest =>
    match dictGet d k with
    | none => none
    | some t => getPath t rest

/-- Lookup of a key path starting from a top-level mapping. -/
def getPathD (d : Dict) (path : List String) : Option JTree :=
  getPath (.node d) path

mutual

/-- Modelled from the spec: deep merge of one higher-priority mapping `u` into
a lower-priority tree (spec §4.1) — two nested mappings merge recursively,
any other combination is replaced outright by the higher-priority value. -/
def mergeTree : JTree → JTree → JTree
  | .node b, .node u => .node (mergeDict b u)
  | _, u => u

/-- Modelled from the spec: insert the entries of the higher-priority mapping
`upd` into the accumulated lower-priority mapping `base`, entry by entry
(spec §4.1 merge algorithm; the embedding of pydantic-settings deep update). -/
def mergeDict : Dict → Dict → Dict
  | base, [] => base
  | base, (k, v) :: rest =>
    match dictGet base k with
    | some bv => mergeDict (dictPut base k (mergeTree bv v)) rest
    | none => mergeDict (base ++ [(k, v)]) rest

end

/-- Modelled from the spec: merge an ordered list of source mappings, highest
priority first (spec §4.1) — the sources are folded from lowest to highest
precedence, each higher source deep-updating the accumulated tree. -/
def mergeSources (sources : List Dict) : Dict :=
  sources.foldr (fun s acc => mergeDict acc s) []

/-- Modelled from the spec: splitting of a flat environment-style key on the
`env_nested_delimiter` `"__"` fixed by `BaseConfig.model_config` — the
embedding of Python's `key.split("__")` (greedy, left to right,
non-overlapping). -/
def splitAux : List Char → List Char → List (List Char)
  | [], cur => [cur.reverse]
  | '_' :: '_' :: rest, cur => cur.reverse :: splitAux rest []
  | c :: rest, cur => splitAux rest (c :: cur)

/-- Split a flat key into its path segments on the `"__"` delimiter. -/
def splitKey (s : String) : List String :=
  (splitAux s.data []).map (fun cs => String.mk cs)

/-- Modelled from the spec: insert one exploded key path with a scalar value
into a mapping, creating nested mappings along the path; a later entry at an
already-occupied path overrides it. -/
def insertPath (d : Dict) : List String → String → Dict
  | [], _ => d
  | [k], v => dictPut d k (.leaf v)
  | k :: k1 :: rest, v =>
    match dictGet d k with
    | some (.node d') => dictPut d k (.node (insertPath d' (k1 :: rest) v))
    | _ => dictPut d k (.node (insertPath [] (k1 :: rest) v))

/-- Modelled from the spec: the mapping contributed by an environment-style
source (OS environment or `.env` file).  Entries whose value is the empty
string are skipped (`env_ignore_empty=True` in `BaseConfig.model_config`);
the remaining keys are split on the `"__"` delimiter and inserted as nested
paths. -/
def envToDict (entries : List (String × String)) : Dict :=
  (entries.filter (fun kv => kv.2 != "")).foldl
    (fun d kv => insertPath d (splitKey kv.1) kv.2) []

/-- The natively nested single-entry mapping for a key path and scalar value,
as a structured-file source would deliver it. -/
def nestSegs : List String → String → Dict
  | [], _ => []
  | [k], v => [(k, .leaf v)]
  | k :: k1 :: rest, v => [(k, .node (nestSegs (k1 :: rest) v))]

/-- The six settings-source kinds of `BaseConfig.settings_customise_sources`
(`file_secret_settings`, `PyprojectTomlConfigSettingsSource`,
`TomlConfigSettingsSource`, `env_settings`, `dotenv_settings`,
`init_settings`). -/
inductive SourceKind where
  | fileSecret
  | pyprojectToml
  | tomlFile
  | envVars
  | dotenv
  | initKw
deriving DecidableEq

/-- The ordered source tuple returned by `BaseConfig.settings_customise_sources`
(base_config.py lines 123-130), highest priority first, as pydantic-settings
interprets the tuple. -/
def settings_customise_sources : List SourceKind :=
  [.fileSecret, .pyprojectToml, .tomlFile, .envVars, .dotenv, .initKw]

/-- Modelled from the spec: the external state the six source providers read
(spec §2, §6).  Structured sources (secret files, the pyproject `[tool.configs]`
section, `configs.toml`, init kwargs) deliver nested mappings directly;
environment-style sources (OS environment, `.env` file) deliver flat
string-to-string entries that the pipeline explodes on the `"__"` delimiter. -/
structure World where
  secretFiles : Dict
  pyprojectToml : Dict
  configToml : Dict
  osEnv : List (String × String)
  dotenvFile : List (String × String)
  initKwargs : Dict

/-- The world in which every source is empty. -/
def emptyWorld : World :=
  { secretFiles := [], pyprojectToml := [], configToml := [],
    osEnv := [], dotenvFile := [], initKwargs := [] }

/-- Fetch the mapping contributed by one source kind (spec §6 Source Provider
interface); environment-style sources pass through the nested-delimiter
explosion and empty-value skipping. -/
def fetchSource (w : World) : SourceKind → Dict
  | .fileSecret => w.secretFiles
  | .pyprojectToml => w.pyprojectToml
  | .tomlFile => w.configToml
  | .envVars => envToDict w.osEnv
  | .dotenv => envToDict w.dotenvFile
  | .initKw => w.initKwargs

/-- The source mappings consulted at materialization, in the order fixed by
`settings_customise_sources`, highest priority first. -/
def fetchedSources (w : World) : List Dict :=
  settings_customise_sources.map (fetchSource w)

/-- The merged configuration tree of a world: all six sources merged honoring
the fixed precedence order. -/
def mergedSettings (w : World) : Dict :=
  mergeSources (fetchedSources w)

/-- Modelled from the spec: the environment-mode enumeration
(`archipy.configs.environment_type.EnvironmentType`; its module is outside the
given sources — base_config.py line 95 shows member `LOCAL` as the schema
default). -/
inductive EnvironmentType where
  | LOCAL
  | DEV
  | TEST
  | STAGING
  | PRODUCTION
deriving DecidableEq

/-- Modelled from the spec: the language enumeration
(`archipy.models.types.LanguageType`; outside the given sources —
base_config.py line 111 shows member `FA` as the schema default). -/
inductive LanguageType where
  | FA
  | EN
deriving DecidableEq

/-- Modelled from the spec: string coercion into `EnvironmentType` (spec §4.2
type coercion for enum fields; unknown strings fail validation). -/
def parseEnvironmentType : String → Option EnvironmentType
  | "LOCAL" => some .LOCAL
  | "DEV" => some .DEV
  | "TEST" => some .TEST
  | "STAGING" => some .STAGING
  | "PRODUCTION" => some .PRODUCTION
  | _ => none

/-- Modelled from the spec: string coercion into `LanguageType`. -/
def parseLanguageType : String → Option LanguageType
  | "FA" => some .FA
  | "EN" => some .EN
  | _ => none

/-- Modelled from the spec: the nested telemetry sub-structure
(`ElasticsearchAPMConfig` of `archipy.configs.config_template`, outside the
given sources); the claims only touch its `ENVIRONMENT` field, the target of
`BaseConfig.customize` (base_config.py line 138). -/
structure ElasticsearchAPMConfig where
  ENVIRONMENT : EnvironmentType
deriving DecidableEq

/-- The runtime class of a configuration instance: `BaseConfig` itself or an
application subclass (`type(config)` in base_config.py line 166). -/
inductive ConfigClass where
  | baseConfig
  | subclassNamed : String → ConfigClass
deriving DecidableEq

/-- A fully materialized configuration instance.  The claims touch
`ENVIRONMENT`, `LANGUAGE` and `ELASTIC_APM`; the remaining schema fields of
`BaseConfig` (lines 90-111) are further opaque sub-structures materialized the
same way and are not observed by any claim.  `typeTag` embeds the Python
runtime class and `allocId` embeds object identity: distinct allocations carry
distinct ids. -/
structure ConfigInstance where
  ENVIRONMENT : EnvironmentType
  LANGUAGE : LanguageType
  ELASTIC_APM : ElasticsearchAPMConfig
  typeTag : ConfigClass
  allocId : Nat
deriving DecidableEq

/-- Errors surfaced by the configuration core, tagged by the Python exception
class raised: `AssertionError` is what `global_config` raises when unset (the
spec's `NotSetError`), `RuntimeError` is what `reload` raises when unset (the
spec's `ReloadWithoutInitError`), and `ValidationError` is the pydantic
materialization failure. -/
inductive PyError where
  | assertionError : String → PyError
  | runtimeError : String → PyError
  | validationError : String → PyError
deriving DecidableEq

/-- Modelled from the spec: coerce the merged-tree entry of one scalar schema
field (spec §4.2) — an absent path takes the schema default, a scalar is
parsed (failing validation when unparseable), a nested mapping where a scalar
is expected fails validation. -/
def coerceScalar {A : Type} (parse : String → Option A) (dflt : A) :
    Option JTree → Except PyError A
  | none => .ok dflt
  | some (.leaf s) =>
    match parse s with
    | some a => .ok a
    | none => .error (.validationError s)
  | some (.node _) => .error (.validationError "expected a scalar, found a table")

/-- Modelled from the spec: materialize the `ELASTIC_APM` sub-structure from
its merged-tree entry (spec §4.2, nested structures materialized recursively;
default sub-structure when the path is absent). -/
def materializeAPM : Option JTree → Except PyError ElasticsearchAPMConfig
  | none => .ok { ENVIRONMENT := .LOCAL }
  | some (.leaf _) => .error (.validationError "expected a table, found a scalar")
  | some (.node d) => do
    let e ← coerceScalar parseEnvironmentType .LOCAL (dictGet d "ENVIRONMENT")
    pure { ENVIRONMENT := e }

/-- Modelled from the spec: bind the merge of the given source mappings onto
the schema (spec §4.2 Settings Materializer).  Fields absent from the merged
tree take their schema defaults (`ENVIRONMENT = LOCAL`, `LANGUAGE = FA`,
default sub-structures — base_config.py lines 90-111); keys that are not
schema fields are ignored (`extra="ignore"`).  The constructed instance is
stamped with the runtime class being constructed and a fresh allocation id. -/
def materializeFromDicts (sources : List Dict) (tag : ConfigClass) (oid : Nat) :
    Except PyError ConfigInstance := do
  let m := mergeSources sources
  let env ← coerceScalar parseEnvironmentType .LOCAL (dictGet m "ENVIRONMENT")
  let lang ← coerceScalar parseLanguageType .FA (dictGet m "LANGUAGE")
  let apm ← materializeAPM (dictGet m "ELASTIC_APM")
  pure { ENVIRONMENT := env, LANGUAGE := lang, ELASTIC_APM := apm,
         typeTag := tag, allocId := oid }

/-- Construction of a configuration instance from the world: fetch all six
sources in the fixed order, merge, materialize (the pipeline run by
`BaseConfig()` / `cls.__config_class_to_reload()`). -/
def materializeWorld (w : World) (tag : ConfigClass) (oid : Nat) :
    Except PyError ConfigInstance :=
  materializeFromDicts (fetchedSources w) tag oid

/-- The error message of `BaseConfig.global_config` (base_config.py line 151). -/
def notSetMsg : String :=
  "Global config not set. Call BaseConfig.set_global(MyConfig()) first."

/-- The error message of `BaseConfig.reload` (base_config.py line 187). -/
def reloadUnsetMsg : String :=
  "Cannot reload: config was never set with set_global()."

/-- The class-level singleton state of `BaseConfig`:
`__global_config` (line 86), `__config_class_to_reload` (line 87), and the
allocation counter embedding Python object identity — every id below `alloc`
may belong to a live object, fresh constructions are stamped with `alloc`. -/
structure RegState where
  globalConfig : Option ConfigInstance
  classToReload : Option ConfigClass
  alloc : Nat
deriving DecidableEq

/-- The state at process start: both class attributes are `None`
(base_config.py lines 86-87). -/
def initState : RegState :=
  { globalConfig := none, classToReload := none, alloc := 0 }

/-- Embedding of `BaseConfig.global_config` (lines 140-152): raises
`AssertionError` when the global config was never set, else returns it. -/
def getGlobal (s : RegState) : Except PyError ConfigInstance :=
  match s.globalConfig with
  | none => .error (.assertionError notSetMsg)
  | some c => .ok c

/-- Embedding of `BaseConfig.customize` (lines 132-138): the hook run on every
instance passed to `set_global`; the base implementation copies
`self.ENVIRONMENT` into `self.ELASTIC_APM.ENVIRONMENT` (in-place mutation in
Python, embedded as the updated value of the same object — `allocId` is
preserved). -/
def customize (c : ConfigInstance) : ConfigInstance :=
  { c with ELASTIC_APM := { c.ELASTIC_APM with ENVIRONMENT := c.ENVIRONMENT } }

/-- Embedding of `BaseConfig.set_global` (lines 154-166): runs `customize` on
the instance (the `hasattr`/`callable` probe always succeeds for a
`BaseConfig`), stores the instance as `__global_config` and its runtime class
as `__config_class_to_reload`.  The operation is total: it never raises. -/
def set_global (s : RegState) (c : ConfigInstance) : RegState :=
  let c' := customize c
  { s with globalConfig := some c', classToReload := some c'.typeTag }

/-- Embedding of `BaseConfig.reload` (lines 168-190): raises `RuntimeError`
when `__config_class_to_reload` is `None`; otherwise constructs a new instance
of the remembered class via the full pipeline (a fresh allocation) and hands it
to `set_global`.  A construction error propagates with the state unchanged —
the swap never happened. -/
def reload (s : RegState) (w : World) : Except PyError Unit × RegState :=
  match s.classToReload with
  | none => (.error (.runtimeError reloadUnsetMsg), s)
  | some tag =>
    match materializeWorld w tag s.alloc with
    | .error e => (.error e, s)
    | .ok newInstance => (.ok (), set_global { s with alloc := s.alloc + 1 } newInstance)

/-- Embedding of user-side instance construction (`MyAppConfig()` in the class
docstring example): run the pipeline against the world and stamp the instance
with a fresh allocation id. -/
def constructInstance (s : RegState) (w : World) (tag : ConfigClass) :
    Except PyError (ConfigInstance × RegState) :=
  match materializeWorld w tag s.alloc with
  | .error e => .error e
  | .ok c => .ok (c, { s with alloc := s.alloc + 1 })

/-- Registry states reachable through the public operations from process
start: `set_global` with any instance, and `reload` against any world
(`global_config` does not change the state). -/
inductive Reachable : RegState → Prop where
  | start : Reachable initState
  | stepSet (s : RegState) (c : ConfigInstance) :
      Reachable s → Reachable (set_global s c)
  | stepReload (s : RegState) (w : World) :
      Reachable s → Reachable (reload s w).2

/-- Clearance of a key path in a source mapping: no entry at the full path and
no scalar blocking a proper prefix of it — such a source leaves lookups at the
path entirely to lower-priority sources. -/
def pathClear (d : Dict) : List String → Bool
  | [] => false
  | k :: rest =>
    match dictGet d k with
    | none => true
    | some (.leaf _) => false
    | some (.node d') => pathClear d' rest

/-- Lookup after a store at the same key finds the stored value. -/
theorem dictGet_dictPut_self (d : Dict) (k : String) (v : JTree) :
    dictGet (dictPut d k v) k = some v := by
  induction d with
  | nil => simp [dictPut, dictGet]
  | cons hd rest ih =>
    obtain ⟨k', v'⟩ := hd
    by_cases h : k' = k
    · subst h
      simp [dictPut, dictGet]
    · simp [dictPut, dictGet, h, ih]

/-- Lookup after a store at a different key is unchanged. -/
theorem dictGet_dictPut_ne (d : Dict) (k k' : String) (v : JTree) (h : k' ≠ k) :
    dictGet (dictPut d k v) k' = dictGet d k' := by
  have hk : k ≠ k' := Ne.symm h
  induction d with
  | nil => simp [dictPut, dictGet, hk]
  | cons hd rest ih =>
    obtain ⟨k0, v0⟩ := hd
    by_cases h0 : k0 = k
    · subst h0
      simp [dictPut, dictGet, hk]
    · simp only [dictPut, if_neg h0, dictGet]
      by_cases h1 : k0 = k'
      · simp [h1]
      · simp [h1, ih]

/-- Lookup distributes over list append, preferring the left mapping. -/
theorem dictGet_append (a b : Dict) (k : String) :
    dictGet (a ++ b) k = (dictGet a k).elim (dictGet b k) some := by
  induction a with
  | nil => simp [dictGet]
  | cons hd rest ih =>
    obtain ⟨k0, v0⟩ := hd
    by_cases h : k0 = k
    · simp [dictGet, h]
    · simp [dictGet, h, ih]

/-- A higher-priority scalar replaces whatever it merges onto. -/
theorem mergeTree_leaf (t : JTree) (s : String) :
    mergeTree t (.leaf s) = .leaf s := by
  cases t <;> rfl

/-- Unfolding of well-formedness at a cons cell. -/
theorem wfDict_cons (k : String) (v : JTree) (rest : Dict)
    (h : wfDict ((k, v) :: rest) = true) :
    dictGet rest k = none ∧ wfTree v = true ∧ wfDict rest = true := by
  rw [wfDict] at h
  simp only [Bool.and_eq_true, Option.isNone_iff_eq_none] at h
  exact ⟨h.1.1, h.1.2, h.2⟩

/-- Values of a well-formed mapping are well-formed trees. -/
theorem wfTree_of_dictGet (d : Dict) (k : String) (t : JTree)
    (hwf : wfDict d = true) (h : dictGet d k = some t) : wfTree t = true := by
  induction d with
  | nil => simp [dictGet] at h
  | cons hd rest ih =>
    obtain ⟨k0, v0⟩ := hd
    obtain ⟨-, hv, hrest⟩ := wfDict_cons _ _ _ hwf
    rw [dictGet] at h
    by_cases h0 : k0 = k
    · rw [if_pos h0] at h
      cases h
      exact hv
    · rw [if_neg h0] at h
      exact ih hrest h

/-- Central characterisation of a merge at one key: when the higher-priority
mapping defines the key the merged entry is its value (merged into the base
value when both exist), otherwise the base entry survives. -/
theorem dictGet_mergeDict (upd : Dict) (hwf : wfDict upd = true) (base : Dict)
    (k : String) :
    dictGet (mergeDict base upd) k =
      match dictGet upd k with
      | some uv =>
        match dictGet base k with
        | some bv => some (mergeTree bv uv)
        | none => some uv
      | none => dictGet base k := by
  induction upd generalizing base with
  | nil =>
    rw [mergeDict]
    simp [dictGet]
  | cons hd rest ih =>
    obtain ⟨k0, v0⟩ := hd
    obtain ⟨h0, hv0, hrest⟩ := wfDict_cons _ _ _ hwf
    rw [mergeDict]
    cases hb : dictGet base k0 with
    | some bv =>
      rw [ih hrest]
      by_cases hk : k0 = k
      · subst hk
        simp [dictGet, h0, dictGet_dictPut_self, hb]
      · have hne : k ≠ k0 := Ne.symm hk
        rw [dictGet_dictPut_ne _ _ _ _ hne]
        simp [dictGet, hk]
    | none =>
      rw [ih hrest]
      by_cases hk : k0 = k
      · subst hk
        simp [dictGet, h0, dictGet_append, hb]
      · rw [dictGet_append]
        simp only [dictGet, if_neg hk]
        cases hbk : dictGet base k <;> simp [dictGet]

/-- A scalar defined by the higher-priority mapping at a key path wins the
merge at that path, whatever the lower-priority tree contains. -/
theorem getPathD_mergeDict_of_leaf (K : List String) (upd base : Dict) (v : String)
    (hwf : wfDict upd = true)
    (h : getPathD upd K = some (.leaf v)) :
    getPathD (mergeDict base upd) K = some (.leaf v) := by
  induction K generalizing upd base with
  | nil => simp [getPathD, getPath] at h
  | cons k rest ih =>
    simp only [getPathD, getPath] at h ⊢
    cases hu : dictGet upd k with
    | none => rw [hu] at h; exact absurd h (by simp)
    | some t =>
      rw [hu] at h
      rw [dictGet_mergeDict upd hwf base k, hu]
      cases rest with
      | nil =>
        simp only [getPath] at h
        cases h
        cases hb : dictGet base k with
        | none => simp [getPath]
        | some bv => simp [getPath, mergeTree_leaf]
      | cons r rs =>
        cases t with
        | leaf s => simp [getPath] at h
        | node u' =>
          have hwfu : wfDict u' = true := by
            have := wfTree_of_dictGet upd k (.node u') hwf hu
            rwa [wfTree] at this
          cases hb : dictGet base k with
          | none => simpa [getPath] using h
          | some bv =>
            cases bv with
            | leaf s => simpa [mergeTree, getPath] using h
            | node b' =>
              simp only [mergeTree, getPath]
              exact ih u' b' hwfu h

/-- Path lookup in a mapping that is clear at that path yields nothing. -/
theorem getPathD_none_of_pathClear (K : List String) (d : Dict)
    (h : pathClear d K = true) : getPathD d K = none := by
  induction K generalizing d with
  | nil => simp [pathClear] at h
  | cons k rest ih =>
    simp only [getPathD, getPath]
    cases hd : dictGet d k with
    | none => simp
    | some t =>
      rw [pathClear, hd] at h
      cases t with
      | leaf s => exact absurd h (by simp)
      | node d' => exact ih d' h

/-- Merging a higher-priority mapping that is clear at a key path does not
change the lookup at that path. -/
theorem getPathD_mergeDict_of_pathClear (K : List String) (upd base : Dict)
    (hwf : wfDict upd = true) (h : pathClear upd K = true) :
    getPathD (mergeDict base upd) K = getPathD base K := by
  induction K generalizing upd base with
  | nil => simp [pathClear] at h
  | cons k rest ih =>
    simp only [getPathD, getPath]
    rw [dictGet_mergeDict upd hwf base k]
    rw [pathClear] at h
    cases hu : dictGet upd k with
    | none =>
      cases hb : dictGet base k <;> simp
    | some t =>
      rw [hu] at h
      cases t with
      | leaf s => exact absurd h (by simp)
      | node u' =>
        have hwfu : wfDict u' = true := by
          have := wfTree_of_dictGet upd k (.node u') hwf hu
          rwa [wfTree] at this
        cases hb : dictGet base k with
        | none =>
          simpa using getPathD_none_of_pathClear rest u' h
        | some bv =>
          cases bv with
          | leaf s =>
            have hn := getPathD_none_of_pathClear rest u' h
            cases rest with
            | nil => simp [pathClear] at h
            | cons r rs =>
              simp only [mergeTree, getPath]
              simpa [getPathD, getPath] using hn
          | node b' =>
            simp only [mergeTree]
            exact ih u' b' hwfu h

/-- Precedence theorem for the merge of an ordered source list: when source
`i` defines a key path as a scalar and every strictly higher-priority source
is clear at that path, the merged tree carries source `i`'s scalar there,
regardless of the lower-priority sources. -/
theorem mergeSources_wins (sources : List Dict) (i : Nat) (hi : i < sources.length)
    (K : List String) (v : String)
    (hwf : ∀ s ∈ sources, wfDict s = true)
    (hdef : getPathD sources[i] K = some (.leaf v))
    (hclear : ∀ (j : Nat) (hj : j < sources.length), j < i →
      pathClear sources[j] K = true) :
    getPathD (mergeSources sources) K = some (.leaf v) := by
  induction sources generalizing i with
  | nil => exact absurd hi (by simp)
  | cons s rest ih =>
    have hms : mergeSources (s :: rest) = mergeDict (mergeSources rest) s := rfl
    cases i with
    | zero =>
      rw [hms]
      exact getPathD_mergeDict_of_leaf K s (mergeSources rest) v (hwf s (by simp))
        (by simpa using hdef)
    | succ j =>
      rw [hms, getPathD_mergeDict_of_pathClear K s (mergeSources rest) (hwf s (by simp))
        (hclear 0 (by simp) (by omega))]
      have hj : j < rest.length := by simpa using hi
      exact ih j hj (fun t ht => hwf t (by simp [ht]))
        (by simpa using hdef)
        (fun j' hj' hlt => by
          have := hclear (j' + 1) (by simpa using hj') (by omega)
          simpa using this)

/-- Store at an existing key, or append at a fresh one, preserves key
uniqueness. -/
theorem wfDict_dictPut (d : Dict) (k : String) (v : JTree)
    (hd : wfDict d = true) (hv : wfTree v = true) : wfDict (dictPut d k v) = true := by
  induction d with
  | nil => simp [dictPut, wfDict, dictGet, hv]
  | cons hd0 rest ih =>
    obtain ⟨k0, v0⟩ := hd0
    obtain ⟨h0, hv0, hrest⟩ := wfDict_cons _ _ _ hd
    by_cases hk : k0 = k
    · subst hk
      simp [dictPut, wfDict, h0, hv, hv0, hrest]
    · simp only [dictPut, if_neg hk]
      rw [wfDict]
      have : dictGet (dictPut rest k v) k0 = dictGet rest k0 :=
        dictGet_dictPut_ne rest k k0 v hk
      simp [this, h0, hv0, ih hrest]

/-- Inserting an exploded key path preserves well-formedness. -/
theorem wfDict_insertPath (segs : List String) (d : Dict) (v : String)
    (hd : wfDict d = true) : wfDict (insertPath d segs v) = true := by
  induction segs generalizing d with
  | nil => simpa [insertPath] using hd
  | cons k rest ih =>
    cases rest with
    | nil =>
      simp only [insertPath]
      exact wfDict_dictPut d k (.leaf v) hd (by rw [wfTree])
    | cons k1 rs =>
      simp only [insertPath]
      cases hg : dictGet d k with
      | none =>
        refine wfDict_dictPut d k _ hd ?_
        rw [wfTree]
        exact ih [] (by rw [wfDict])
      | some t =>
        cases t with
        | leaf s =>
          refine wfDict_dictPut d k _ hd ?_
          rw [wfTree]
          exact ih [] (by rw [wfDict])
        | node d' =>
          refine wfDict_dictPut d k _ hd ?_
          rw [wfTree]
          refine ih d' ?_
          have := wfTree_of_dictGet d k (.node d') hd hg
          rwa [wfTree] at this

/-- The mapping delivered by an environment-style source is a well-formed
dictionary. -/
theorem wfDict_envToDict (entries : List (String × String)) :
    wfDict (envToDict entries) = true := by
  rw [envToDict]
  generalize (entries.filter (fun kv => kv.2 != "")) = l
  have h : ∀ (acc : Dict), wfDict acc = true →
      wfDict (l.foldl (fun d kv => insertPath d (splitKey kv.1) kv.2) acc) = true := by
    induction l with
    | nil => intro acc hacc; simpa using hacc
    | cons e rest ih =>
      intro acc hacc
      simp only [List.foldl_cons]
      exact ih _ (wfDict_insertPath _ _ _ hacc)
  exact h [] (by rw [wfDict])

/-- Inserting one exploded path into the empty mapping builds exactly the
natively nested single-entry mapping. -/
theorem insertPath_nil_eq_nestSegs (segs : List String) (v : String) (h : segs ≠ []) :
    insertPath [] segs v = nestSegs segs v := by
  induction segs with
  | nil => exact absurd rfl h
  | cons k rest ih =>
    cases rest with
    | nil => simp [insertPath, nestSegs, dictPut]
    | cons k1 rs =>
      simp only [insertPath, nestSegs, dictGet, dictPut]
      rw [ih (by simp)]

/-- One nonempty-valued flat entry contributes exactly the natively nested
mapping of its exploded key path. -/
theorem envToDict_single (k : String) (segs : List String) (v : String)
    (hs : splitKey k = segs) (hv : v ≠ "") (hne : segs ≠ []) :
    envToDict [(k, v)] = nestSegs segs v := by
  rw [envToDict]
  have hb : (v != "") = true := by simpa using hv
  have hfil : ([(k, v)].filter (fun kv => kv.2 != "")) = [(k, v)] := by
    simp [List.filter, hb]
  rw [hfil]
  simp only [List.foldl_cons, List.foldl_nil]
  rw [hs]
  exact insertPath_nil_eq_nestSegs segs v hne

/-- An empty-valued entry of an environment-style source is dropped: the
source's mapping equals the one without the entry. -/
theorem envToDict_drop_empty (pre post : List (String × String)) (k : String) :
    envToDict (pre ++ (k, "") :: post) = envToDict (pre ++ post) := by
  rw [envToDict, envToDict]
  congr 1
  simp [List.filter_append]

/-- Reachable registry states keep the two class attributes in sync: the
global config is absent exactly when the remembered class is. -/
theorem reachable_sync (s : RegState) (h : Reachable s) :
    s.globalConfig = none ↔ s.classToReload = none := by
  induction h with
  | start => simp [initState]
  | stepSet s c hs ih => simp [set_global]
  | stepReload s w hs ih =>
    obtain ⟨g, c, a⟩ := s
    cases c with
    | none => simpa [reload] using ih
    | some tag =>
      cases hm : materializeWorld w tag a with
      | error e =>
        simp only [reload, hm]
        exact ih
      | ok n => simp [reload, hm, set_global]

/-- Materialization stamps the instance with the requested runtime class and
allocation id. -/
theorem materializeFromDicts_stamp (sources : List Dict) (tag : ConfigClass) (oid : Nat)
    (n : ConfigInstance) (h : materializeFromDicts sources tag oid = .ok n) :
    n.typeTag = tag ∧ n.allocId = oid := by
  rw [materializeFromDicts] at h
  simp only [bind, Except.bind] at h
  cases h1 : coerceScalar parseEnvironmentType EnvironmentType.LOCAL
      (dictGet (mergeSources sources) "ENVIRONMENT") with
  | error e => rw [h1] at h; simp at h
  | ok env =>
    rw [h1] at h
    cases h2 : coerceScalar parseLanguageType LanguageType.FA
        (dictGet (mergeSources sources) "LANGUAGE") with
    | error e => rw [h2] at h; simp at h
    | ok lang =>
      rw [h2] at h
      cases h3 : materializeAPM (dictGet (mergeSources sources) "ELASTIC_APM") with
      | error e => rw [h3] at h; simp at h
      | ok apm =>
        rw [h3] at h
        simp only [pure, Except.pure, Except.ok.injEq] at h
        rw [← h]
        exact ⟨rfl, rfl⟩

/-- A concrete instance whose nested telemetry environment disagrees with its
top-level environment. -/
def sampleInstance : ConfigInstance :=
  { ENVIRONMENT := .PRODUCTION, LANGUAGE := .FA, ELASTIC_APM := { ENVIRONMENT := .LOCAL },
    typeTag := .baseConfig, allocId := 0 }

/-- A concrete registry state after one successful `set_global sampleInstance`
(allocation counter past the instance's id). -/
def sampleSetState : RegState :=
  { globalConfig := some (customize sampleInstance),
    classToReload := some ConfigClass.baseConfig, alloc := 1 }

/-- C1 (amended): in the fixed six-tier source order realized by
`settings_customise_sources` (secret files, pyproject manifest section,
dedicated toml file, OS environment, dotenv file, init settings — highest
priority first), the merged value at a key path equals the scalar of source
`i` whenever source `i` defines the path and every strictly higher-precedence
source is clear at it (defines neither the path nor a blocking non-mapping
value at a proper prefix); the lower-precedence sources are arbitrary.  The
clearance proviso is the amendment: the unamended claim fails when a higher
source shadows a prefix of the path (see the counterexample). -/
theorem claim1_amended_thm (w : World) (i : Nat) (hi : i < (fetchedSources w).length)
    (K : List String) (v : String)
    (hwf1 : wfDict w.secretFiles = true) (hwf2 : wfDict w.pyprojectToml = true)
    (hwf3 : wfDict w.configToml = true) (hwf4 : wfDict w.initKwargs = true)
    (hdef : getPathD (fetchedSources w)[i] K = some (.leaf v))
    (hclear : ∀ (j : Nat) (hj : j < (fetchedSources w).length), j < i →
      pathClear (fetchedSources w)[j] K = true) :
    settings_customise_sources =
      [SourceKind.fileSecret, SourceKind.pyprojectToml, SourceKind.tomlFile,
       SourceKind.envVars, SourceKind.dotenv, SourceKind.initKw]
    ∧ getPathD (mergedSettings w) K = some (.leaf v) := by
  refine ⟨rfl, ?_⟩
  rw [mergedSettings]
  refine mergeSources_wins (fetchedSources w) i hi K v ?_ hdef hclear
  intro s hs
  have hlist : fetchedSources w = [w.secretFiles, w.pyprojectToml, w.configToml,
      envToDict w.osEnv, envToDict w.dotenvFile, w.initKwargs] := rfl
  rw [hlist] at hs
  simp only [List.mem_cons, List.not_mem_nil, or_false] at hs
  rcases hs with h | h | h | h | h | h <;> subst h
  · exact hwf1
  · exact hwf2
  · exact hwf3
  · exact wfDict_envToDict w.osEnv
  · exact wfDict_envToDict w.dotenvFile
  · exact hwf4

/-- A world where only the dedicated toml file defines `ENVIRONMENT`. -/
def tomlOnlyWorld : World :=
  { emptyWorld with configToml := [("ENVIRONMENT", .leaf "PRODUCTION")] }

/-- C1 witness: the third-tier toml file wins `ENVIRONMENT` when the two
higher tiers are empty. -/
theorem claim1_witness :
    settings_customise_sources =
      [SourceKind.fileSecret, SourceKind.pyprojectToml, SourceKind.tomlFile,
       SourceKind.envVars, SourceKind.dotenv, SourceKind.initKw]
    ∧ getPathD (mergedSettings tomlOnlyWorld) ["ENVIRONMENT"] =
        some (.leaf "PRODUCTION") :=
  claim1_amended_thm tomlOnlyWorld 2 (by decide) ["ENVIRONMENT"] "PRODUCTION"
    rfl rfl rfl rfl rfl
    (by
      intro j hj hlt
      interval_cases j <;> rfl)

/-- A world exhibiting prefix shadowing: the secret tier holds a scalar at
`A` while two lower tiers both define the deeper path `A.B`. -/
def shadowWorld : World :=
  { secretFiles := [("A", .leaf "5")],
    pyprojectToml := [("A", .node [("B", .leaf "6")])],
    configToml := [("A", .node [("B", .leaf "7")])],
    osEnv := [], dotenvFile := [], initKwargs := [] }

/-- C1 counterexample: the key path `A.B` is defined by two sources (tiers 2
and 3), yet the merged value at `A.B` is not the higher-precedence definer's
`"6"` — the top tier's scalar at the prefix `A` replaces the whole subtree,
so the claim's "regardless of what the other sources contain" fails. -/
theorem claim1_counterexample :
    getPathD shadowWorld.pyprojectToml ["A", "B"] = some (.leaf "6")
    ∧ getPathD shadowWorld.configToml ["A", "B"] = some (.leaf "7")
    ∧ getPathD shadowWorld.secretFiles ["A", "B"] = none
    ∧ getPathD (mergedSettings shadowWorld) ["A", "B"] = none
    ∧ getPathD (mergedSettings shadowWorld) ["A", "B"] ≠ some (.leaf "6") := by
  have h4 : getPathD (mergedSettings shadowWorld) ["A", "B"] = none := rfl
  exact ⟨rfl, rfl, rfl, h4, by rw [h4]; exact fun h => Option.noConfusion h⟩

/-- C2: reload is all-or-nothing — in any registry state holding instance `i`,
if constructing the new instance fails with any error, `reload` propagates
that error with the state unchanged, and `get` immediately afterwards still
returns `i`. -/
theorem claim2_thm (s : RegState) (w : World) (i : ConfigInstance)
    (tag : ConfigClass) (e : PyError)
    (hcur : s.globalConfig = some i) (htag : s.classToReload = some tag)
    (hfail : materializeWorld w tag s.alloc = .error e) :
    reload s w = (.error e, s) ∧ getGlobal (reload s w).2 = .ok i := by
  have h1 : reload s w = (.error e, s) := by
    rw [reload, htag]
    simp [hfail]
  refine ⟨h1, ?_⟩
  rw [h1]
  simp [getGlobal, hcur]

/-- A world whose OS environment holds an uncoercible `ENVIRONMENT` value, so
materialization fails validation. -/
def envBadWorld : World :=
  { emptyWorld with osEnv := [("ENVIRONMENT", "nonsense")] }

/-- C2 witness: a failing reload against a concrete registered state leaves
`get` returning the pre-reload instance. -/
theorem claim2_witness :
    reload sampleSetState envBadWorld = (.error (.validationError "nonsense"), sampleSetState)
    ∧ getGlobal (reload sampleSetState envBadWorld).2 = .ok (customize sampleInstance) :=
  claim2_thm sampleSetState envBadWorld (customize sampleInstance) ConfigClass.baseConfig
    (.validationError "nonsense") rfl rfl rfl

/-- C3: in every reachable registry state, `get` fails (with the
`AssertionError` the spec calls `NotSetError`) exactly when the registry is
unset, and after any successful `set` it returns the stored current instance
(the set instance, post-hook) without failure. -/
theorem claim3_thm (s : RegState) (h : Reachable s) :
    ((∃ msg, getGlobal s = .error (.assertionError msg)) ↔
      (s.globalConfig = none ∧ s.classToReload = none))
    ∧ ∀ x : ConfigInstance, getGlobal (set_global s x) = .ok (customize x) := by
  constructor
  · constructor
    · rintro ⟨msg, hmsg⟩
      cases hg : s.globalConfig with
      | none => exact ⟨rfl, (reachable_sync s h).mp hg⟩
      | some c =>
        rw [getGlobal, hg] at hmsg
        exact absurd hmsg (by simp)
    · rintro ⟨hg, -⟩
      exact ⟨notSetMsg, by rw [getGlobal, hg]⟩
  · intro x
    rfl

/-- C3 witness: at the initial (unset) state the failure equivalence holds,
and `get` after a concrete `set` returns the customized instance. -/
theorem claim3_witness :
    ((∃ msg, getGlobal initState = .error (.assertionError msg)) ↔
      (initState.globalConfig = none ∧ initState.classToReload = none))
    ∧ getGlobal (set_global initState sampleInstance) = .ok (customize sampleInstance) :=
  ⟨(claim3_thm initState Reachable.start).1,
   (claim3_thm initState Reachable.start).2 sampleInstance⟩

/-- C4: reload while unset fails with the `RuntimeError` the spec calls
`ReloadWithoutInitError` and leaves the state unchanged; `get` in the same
state fails with the `AssertionError` the spec calls `NotSetError`; the two
error kinds are distinct, whatever their messages. -/
theorem claim4_thm (s : RegState) (w : World)
    (hg : s.globalConfig = none) (hc : s.classToReload = none) :
    (reload s w).1 = .error (.runtimeError reloadUnsetMsg)
    ∧ (reload s w).2 = s
    ∧ getGlobal s = .error (.assertionError notSetMsg)
    ∧ ∀ m m' : String, PyError.runtimeError m ≠ PyError.assertionError m' := by
  refine ⟨?_, ?_, ?_, fun m m' hmm => PyError.noConfusion hmm⟩
  · rw [reload, hc]
  · rw [reload, hc]
  · rw [getGlobal, hg]

/-- C4 witness: both failures at the concrete initial state. -/
theorem claim4_witness :
    (reload initState emptyWorld).1 = .error (.runtimeError reloadUnsetMsg)
    ∧ (reload initState emptyWorld).2 = initState
    ∧ getGlobal initState = .error (.assertionError notSetMsg)
    ∧ ∀ m m' : String, PyError.runtimeError m ≠ PyError.assertionError m' :=
  claim4_thm initState emptyWorld rfl rfl

/-- C5: `set_global` is total (it never fails) and, from any state, runs the
customization hook on the instance, stores it as current and records its
runtime type as the bound type; a repeated call with another instance
overwrites both — last writer wins. -/
theorem claim5_thm (s : RegState) (x y : ConfigInstance) :
    (set_global s x).globalConfig = some (customize x)
    ∧ (set_global s x).classToReload = some x.typeTag
    ∧ (customize x).typeTag = x.typeTag
    ∧ (set_global (set_global s x) y).globalConfig = some (customize y)
    ∧ (set_global (set_global s x) y).classToReload = some y.typeTag :=
  ⟨rfl, rfl, rfl, rfl, rfl⟩

/-- The instance the full pipeline yields from the empty world at allocation
id 1: every field at its schema default. -/
def reloadedInstance : ConfigInstance :=
  { ENVIRONMENT := .LOCAL, LANGUAGE := .FA, ELASTIC_APM := { ENVIRONMENT := .LOCAL },
    typeTag := .baseConfig, allocId := 1 }

/-- C6: from a set state holding a live instance `i`, a succeeding `reload`
constructs a fresh instance of the bound type via the full pipeline and then
behaves exactly as `set_global` of that new instance — re-running the
customization hook; afterwards the current instance is a distinct object
(fresh allocation id) of the same bound type.  The previous instance is a
value the caller still holds unchanged — the embedding is pure and `reload`
only allocates and swaps, never writing through `i`. -/
theorem claim6_thm (s : RegState) (w : World) (i n : ConfigInstance)
    (hcur : s.globalConfig = some i) (htag : s.classToReload = some i.typeTag)
    (halloc : i.allocId < s.alloc)
    (hok : materializeWorld w i.typeTag s.alloc = .ok n) :
    reload s w = (.ok (), set_global { s with alloc := s.alloc + 1 } n)
    ∧ (reload s w).2.globalConfig = some (customize n)
    ∧ (reload s w).2.classToReload = some i.typeTag
    ∧ (customize n).typeTag = i.typeTag
    ∧ n.allocId = s.alloc
    ∧ (customize n).allocId ≠ i.allocId := by
  obtain ⟨htagn, hoid⟩ := materializeFromDicts_stamp (fetchedSources w) i.typeTag s.alloc n hok
  have h1 : reload s w = (.ok (), set_global { s with alloc := s.alloc + 1 } n) := by
    rw [reload, htag]
    simp [hok]
  have hct : (customize n).typeTag = i.typeTag := htagn
  refine ⟨h1, ?_, ?_, hct, hoid, ?_⟩
  · rw [h1]
    rfl
  · rw [h1]
    show some (customize n).typeTag = some i.typeTag
    rw [hct]
  · have : (customize n).allocId = n.allocId := rfl
    omega

/-- C6 witness: a concrete reload of the registered state against the empty
world yields the default instance under a fresh allocation id. -/
theorem claim6_witness :
    reload sampleSetState emptyWorld =
      (.ok (), set_global { sampleSetState with alloc := 2 } reloadedInstance)
    ∧ (reload sampleSetState emptyWorld).2.globalConfig = some (customize reloadedInstance)
    ∧ (reload sampleSetState emptyWorld).2.classToReload =
        some (customize sampleInstance).typeTag
    ∧ (customize reloadedInstance).typeTag = (customize sampleInstance).typeTag
    ∧ reloadedInstance.allocId = sampleSetState.alloc
    ∧ (customize reloadedInstance).allocId ≠ (customize sampleInstance).allocId :=
  claim6_thm sampleSetState emptyWorld (customize sampleInstance) reloadedInstance
    rfl rfl (by decide) rfl

/-- C7: the customization hook runs exactly once inside `set_global`, before
the instance is exposed — the registered and returned value is the single
`customize` application; in particular the registered instance's nested
`ELASTIC_APM.ENVIRONMENT` equals the instance's top-level `ENVIRONMENT`, even
when the caller set the nested field to something else. -/
theorem claim7_thm (s : RegState) (x : ConfigInstance) :
    (set_global s x).globalConfig = some (customize x)
    ∧ getGlobal (set_global s x) = .ok (customize x)
    ∧ (customize x).ELASTIC_APM.ENVIRONMENT = x.ENVIRONMENT :=
  ⟨rfl, rfl, rfl⟩

/-- C8 counterexample: the base `customize` is not a no-op — on a freshly
built instance whose nested telemetry environment (`LOCAL`) differs from its
top-level environment (`PRODUCTION`), `customize` changes the instance. -/
theorem claim8_counterexample :
    customize sampleInstance ≠ sampleInstance := by
  decide

/-- C8 (amended): the base `customize` copies the top-level `ENVIRONMENT`
into `ELASTIC_APM.ENVIRONMENT` and leaves every other field unchanged; it is
a no-op exactly when the nested field already equals the top-level one. -/
theorem claim8_amended_thm (x : ConfigInstance) :
    (customize x).ENVIRONMENT = x.ENVIRONMENT
    ∧ (customize x).LANGUAGE = x.LANGUAGE
    ∧ (customize x).typeTag = x.typeTag
    ∧ (customize x).allocId = x.allocId
    ∧ (customize x).ELASTIC_APM.ENVIRONMENT = x.ENVIRONMENT
    ∧ (customize x = x ↔ x.ELASTIC_APM.ENVIRONMENT = x.ENVIRONMENT) := by
  obtain ⟨e, l, apm, t, a⟩ := x
  obtain ⟨ae⟩ := apm
  refine ⟨rfl, rfl, rfl, rfl, rfl, ?_⟩
  simp [customize, eq_comm]

/-- C9 (amended): for every flat key exploding to a nonempty segment path and
every nonempty scalar value, the environment-style flattened entry produces
exactly the natively nested mapping, hence the identical merged tree and the
identical materialized instance when substituted at the same precedence slot.
The nonemptiness of the value is the amendment: an empty scalar is dropped by
environment-style sources (see the counterexample and C10). -/
theorem claim9_amended_thm (k : String) (segs : List String) (v : String)
    (hs : splitKey k = segs) (hne : segs ≠ []) (hv : v ≠ "") :
    envToDict [(k, v)] = nestSegs segs v
    ∧ (∀ pre post : List Dict,
        mergeSources (pre ++ envToDict [(k, v)] :: post) =
          mergeSources (pre ++ nestSegs segs v :: post))
    ∧ (∀ (pre post : List Dict) (tag : ConfigClass) (oid : Nat),
        materializeFromDicts (pre ++ envToDict [(k, v)] :: post) tag oid =
          materializeFromDicts (pre ++ nestSegs segs v :: post) tag oid) := by
  have h := envToDict_single k segs v hs hv hne
  exact ⟨h, fun pre post => by rw [h], fun pre post tag oid => by rw [h]⟩

/-- C9 witness: the spec's own example `PARENT__CHILD=7`. -/
theorem claim9_witness :
    envToDict [("PARENT__CHILD", "7")] = nestSegs ["PARENT", "CHILD"] "7"
    ∧ (∀ pre post : List Dict,
        mergeSources (pre ++ envToDict [("PARENT__CHILD", "7")] :: post) =
          mergeSources (pre ++ nestSegs ["PARENT", "CHILD"] "7" :: post))
    ∧ (∀ (pre post : List Dict) (tag : ConfigClass) (oid : Nat),
        materializeFromDicts (pre ++ envToDict [("PARENT__CHILD", "7")] :: post) tag oid =
          materializeFromDicts (pre ++ nestSegs ["PARENT", "CHILD"] "7" :: post) tag oid) :=
  claim9_amended_thm "PARENT__CHILD" ["PARENT", "CHILD"] "7" rfl (by decide) (by decide)

/-- C9 counterexample: with the empty scalar value, the flattened entry is
dropped by the environment-style source (`env_ignore_empty`) while the native
nested entry persists, so the produced mappings — and the merged trees — are
not identical, refuting the claim's "for every scalar value". -/
theorem claim9_counterexample :
    envToDict [("PARENT__CHILD", "")] = []
    ∧ nestSegs (splitKey "PARENT__CHILD") "" =
        [("PARENT", JTree.node [("CHILD", JTree.leaf "")])]
    ∧ envToDict [("PARENT__CHILD", "")] ≠ nestSegs (splitKey "PARENT__CHILD") ""
    ∧ mergeSources [envToDict [("PARENT__CHILD", "")]] ≠
        mergeSources [nestSegs (splitKey "PARENT__CHILD") ""] := by
  have h1 : envToDict [("PARENT__CHILD", "")] = [] := rfl
  have h2 : nestSegs (splitKey "PARENT__CHILD") "" =
      [("PARENT", JTree.node [("CHILD", JTree.leaf "")])] := rfl
  have h3 : mergeSources [envToDict [("PARENT__CHILD", "")]] = [] := rfl
  have h4 : mergeSources [nestSegs (splitKey "PARENT__CHILD") ""] =
      [("PARENT", JTree.node [("CHILD", JTree.leaf "")])] := rfl
  refine ⟨h1, h2, ?_, ?_⟩
  · rw [h1, h2]
    exact fun h => List.noConfusion h
  · rw [h3, h4]
    exact fun h => List.noConfusion h

/-- C10: an environment-style entry with an empty scalar value is treated
exactly as if the key were absent from that source — the source's mapping,
and hence the materialized instance, are identical with and without the
entry, so the resolved value falls through to lower-precedence sources or the
schema default (concretely: an empty `ENVIRONMENT` env var leaves the default
`LOCAL`). -/
theorem claim10_thm (pre post : List (String × String)) (k : String) :
    envToDict (pre ++ (k, "") :: post) = envToDict (pre ++ post)
    ∧ (∀ (w : World) (tag : ConfigClass) (oid : Nat),
        materializeWorld { w with osEnv := pre ++ (k, "") :: post } tag oid =
          materializeWorld { w with osEnv := pre ++ post } tag oid)
    ∧ (∀ (w : World) (tag : ConfigClass) (oid : Nat),
        materializeWorld { w with dotenvFile := pre ++ (k, "") :: post } tag oid =
          materializeWorld { w with dotenvFile := pre ++ post } tag oid)
    ∧ materializeWorld { emptyWorld with osEnv := [("ENVIRONMENT", "")] }
        ConfigClass.baseConfig 0 =
        materializeWorld emptyWorld ConfigClass.baseConfig 0
    ∧ materializeWorld { emptyWorld with osEnv := [("ENVIRONMENT", "")] }
        ConfigClass.baseConfig 0 =
        .ok { ENVIRONMENT := .LOCAL, LANGUAGE := .FA,
              ELASTIC_APM := { ENVIRONMENT := .LOCAL },
              typeTag := .baseConfig, allocId := 0 } := by
  have h := envToDict_drop_empty pre post k
  refine ⟨h, ?_, ?_, rfl, rfl⟩
  · intro w tag oid
    have hf : ∀ l, fetchedSources { w with osEnv := l } =
        [w.secretFiles, w.pyprojectToml, w.configToml,
         envToDict l, envToDict w.dotenvFile, w.initKwargs] := fun l => rfl
    rw [materializeWorld, materializeWorld, hf, hf, h]
  · intro w tag oid
    have hf : ∀ l, fetchedSources { w with dotenvFile := l } =
        [w.secretFiles, w.pyprojectToml, w.configToml,
         envToDict w.osEnv, envToDict l, w.initKwargs] := fun l => rfl
    rw [materializeWorld, materializeWorld, hf, hf, h]
